import Mathlib

/-!
Verification of the chat-server repository (`venn`): a shallow embedding of the
warehouse connector, the LLM handler's SQL extraction and result formatting,
the realtime gateway's connection registry, and the persistence-backed API
operations (register, join channel, message listings), together with theorems
settling the frozen claims about them.
-/

namespace Venn

/-! ## Python string primitives

Character-level embeddings of the Python string operations used by the source:
`str.strip`, `str.upper`, `startswith`, and the `in` substring test.
-/

/-- Python whitespace for `str.strip` and the regex class `\s` (ASCII range). -/
def pyIsSpace (c : Char) : Bool :=
  c = ' ' || c = '\t' || c = '\n' || c = '\r' || c = '\x0b' || c = '\x0c'

/-- Python `str.strip()`: drop whitespace from both ends. -/
def pyStrip (s : String) : String :=
  String.mk (((s.data.dropWhile pyIsSpace).reverse.dropWhile pyIsSpace).reverse)

/-- Python `str.upper()` on the ASCII strings the source manipulates. -/
def pyUpper (s : String) : String :=
  String.mk (s.data.map Char.toUpper)

/-- `hasLead pat s`: the character list `s` starts with `pat` (exact match). -/
def hasLead : List Char → List Char → Bool
  | [], _ => true
  | _ :: _, [] => false
  | p :: ps, c :: cs => p = c && hasLead ps cs

/-- `containsSub s pat`: `pat` occurs as a contiguous substring of `s`
(Python `pat in s`). -/
def containsSub : List Char → List Char → Bool
  | s, pat =>
    hasLead pat s ||
      match s with
      | [] => false
      | _ :: t => containsSub t pat

/-- Python `pat in s` on strings. -/
def strContains (s pat : String) : Bool :=
  containsSub s.data pat.data

/-- Python `s.startswith(pat)`. -/
def strStarts (s pat : String) : Bool :=
  hasLead pat.data s.data

/-! ## Analytics-warehouse connector (`src/database/snowflake_connector.py`)

`execute_read_query` is embedded up to (and excluding) the network call: it
returns the error raised by the validation phase, or the exact SQL text that
would be sent to the warehouse.
-/

/-- The `dangerous_keywords` list inside `execute_read_query`. -/
def dangerous_keywords : List String :=
  ["INSERT", "UPDATE", "DELETE", "DROP", "CREATE", "ALTER", "TRUNCATE"]

/-- The `dangerous_patterns` list inside `validate_query_safety`. -/
def dangerous_patterns : List String :=
  ["INSERT", "UPDATE", "DELETE", "DROP", "CREATE",
   "ALTER", "TRUNCATE", "MERGE", "CALL", "EXECUTE"]

/-- `SnowflakeConnector.execute_read_query`, validation and rewrite phase:
`.error msg` models the raised `ValueError`, `.ok q` the text handed to the
cursor. -/
def execute_read_query (query : String) (limit : Nat := 1000) :
    Except String String :=
  let query_upper := pyUpper (pyStrip query)
  if strStarts query_upper "SELECT" = false then
    .error "Only SELECT queries are allowed"
  else
    match dangerous_keywords.find? (fun k => strContains query_upper k) with
    | some k => .error ("Query contains forbidden keyword: " ++ k)
    | none =>
        if strContains query_upper "LIMIT" then .ok query
        else .ok (query ++ " LIMIT " ++ toString limit)

/-- `SnowflakeConnector.validate_query_safety`. -/
def validate_query_safety (query : String) : Bool :=
  let query_upper := pyUpper (pyStrip query)
  if strStarts query_upper "SELECT" = false then false
  else if dangerous_patterns.any (fun p => strContains query_upper p) then false
  else true

end Venn

namespace Venn

/-- If the trimmed upper-cased query starts with `SELECT` and contains none of
the seven dangerous keywords, `execute_read_query` succeeds and appends the
limit exactly when `LIMIT` is absent. -/
theorem exec_accepts (q : String) (limit : Nat)
    (hs : strStarts (pyUpper (pyStrip q)) "SELECT" = true)
    (hnone : ∀ k ∈ dangerous_keywords, strContains (pyUpper (pyStrip q)) k = false) :
    execute_read_query q limit =
      .ok (if strContains (pyUpper (pyStrip q)) "LIMIT" then q
           else q ++ " LIMIT " ++ toString limit) := by
  have hf : dangerous_keywords.find? (fun k =>
      strContains (pyUpper (pyStrip q)) k) = none :=
    List.find?_eq_none.mpr (fun k hk => by simp [hnone k hk])
  unfold execute_read_query
  rw [if_neg (by simp [hs]), hf]
  show (if strContains (pyUpper (pyStrip q)) "LIMIT" = true then Except.ok q
        else Except.ok (q ++ " LIMIT " ++ toString limit)) = _
  split <;> simp_all

/-- C1: `execute_read_query` raises iff the trimmed upper-cased text fails the
SELECT-prefix check or contains a dangerous keyword; otherwise the executed
text is the original with `" LIMIT {limit}"` appended exactly when the
upper-cased text lacks the substring `LIMIT`. -/
theorem C1_execute_read_query_guard (q : String) (limit : Nat) :
    ((∃ e, execute_read_query q limit = .error e) ↔
      (strStarts (pyUpper (pyStrip q)) "SELECT" = false ∨
        ∃ k ∈ dangerous_keywords, strContains (pyUpper (pyStrip q)) k = true)) ∧
    (strStarts (pyUpper (pyStrip q)) "SELECT" = true →
      (∀ k ∈ dangerous_keywords, strContains (pyUpper (pyStrip q)) k = false) →
      execute_read_query q limit =
        .ok (if strContains (pyUpper (pyStrip q)) "LIMIT" then q
             else q ++ " LIMIT " ++ toString limit)) := by
  constructor
  · constructor
    · intro ⟨e, he⟩
      by_cases hs : strStarts (pyUpper (pyStrip q)) "SELECT" = false
      · exact Or.inl hs
      · right
        unfold execute_read_query at he
        rw [if_neg hs] at he
        split at he
        next k heq =>
          exact ⟨k, List.mem_of_find?_eq_some heq, by simpa using List.find?_some heq⟩
        next heq =>
          split at he <;> simp at he
    · intro h
      rcases h with hs | ⟨k, hk, hck⟩
      · exact ⟨"Only SELECT queries are allowed",
          by unfold execute_read_query; rw [if_pos hs]⟩
      · by_cases hs : strStarts (pyUpper (pyStrip q)) "SELECT" = false
        · exact ⟨"Only SELECT queries are allowed",
            by unfold execute_read_query; rw [if_pos hs]⟩
        · cases hf : dangerous_keywords.find? (fun k =>
              strContains (pyUpper (pyStrip q)) k) with
          | none =>
              exact absurd (List.find?_eq_none.mp hf k hk) (by simp [hck])
          | some k' =>
              refine ⟨"Query contains forbidden keyword: " ++ k', ?_⟩
              unfold execute_read_query
              rw [if_neg hs, hf]
  · exact exec_accepts q limit

/-- Witness for C1 at `"SELECT * FROM T"` (accepted, limit appended) using the
default row limit 1000. -/
theorem C1_execute_read_query_guard_witness :
    execute_read_query "SELECT * FROM T" 1000 =
      .ok "SELECT * FROM T LIMIT 1000" :=
  ((C1_execute_read_query_guard "SELECT * FROM T" 1000).2
      (by decide) (by decide)).trans rfl

/-- C2: the keyword set of `validate_query_safety` is a strict superset of the
set inside `execute_read_query`; every query passing `validate_query_safety`
passes `execute_read_query`'s checks, and some query accepted by
`execute_read_query`'s checks is rejected by `validate_query_safety`. -/
theorem C2_keyword_sets_strict_superset :
    ((∀ k ∈ dangerous_keywords, k ∈ dangerous_patterns) ∧
      ∃ k ∈ dangerous_patterns, k ∉ dangerous_keywords) ∧
    (∀ q limit, validate_query_safety q = true →
      ∃ out, execute_read_query q limit = .ok out) ∧
    (∃ q, (∃ out, execute_read_query q 1000 = .ok out) ∧
      validate_query_safety q = false) := by
  refine ⟨⟨by decide, "MERGE", by decide, by decide⟩, ?_, ?_⟩
  · intro q limit hv
    unfold validate_query_safety at hv
    by_cases hs : strStarts (pyUpper (pyStrip q)) "SELECT" = false
    · rw [if_pos hs] at hv; simp at hv
    · rw [if_neg hs] at hv
      by_cases ha : dangerous_patterns.any
          (fun p => strContains (pyUpper (pyStrip q)) p) = true
      · rw [if_pos ha] at hv; simp at hv
      · have hall : ∀ p ∈ dangerous_patterns,
            strContains (pyUpper (pyStrip q)) p = false := by
          intro p hp
          by_contra hc
          exact ha (List.any_eq_true.mpr ⟨p, hp, by simpa using hc⟩)
        refine ⟨_, exec_accepts q limit (by simpa using hs) ?_⟩
        intro k hk
        exact hall k ((by decide :
          ∀ k ∈ dangerous_keywords, k ∈ dangerous_patterns) k hk)
  · exact ⟨"SELECT MERGE FROM T", ⟨"SELECT MERGE FROM T LIMIT 1000", rfl⟩,
      by decide⟩

/-- Witness for C2 at `"SELECT 1"`: it passes `validate_query_safety`, hence
`execute_read_query` accepts it. -/
theorem C2_keyword_sets_strict_superset_witness :
    validate_query_safety "SELECT 1" = true ∧
      ∃ out, execute_read_query "SELECT 1" 1000 = .ok out :=
  ⟨by decide, C2_keyword_sets_strict_superset.2.1 "SELECT 1" 1000 (by decide)⟩

/-! ## Realtime gateway (`src/core/websocket.py`)

The `ConnectionManager` holds a user-to-socket dict and two dicts of sets.
Python dicts are modelled as association lists (insertion order, unique keys
by construction), sets as duplicate-free lists; a socket is an opaque `Nat`
handle.
-/

/-- Python dict lookup `m.get(k)` / `m[k]`. -/
def lookupA {α : Type} : List (String × α) → String → Option α
  | [], _ => none
  | p :: m, k => if p.1 = k then some p.2 else lookupA m k

/-- Python dict membership `k in m`. -/
def hasKey {α : Type} (m : List (String × α)) (k : String) : Bool :=
  m.any (fun p => p.1 = k)

/-- Python dict assignment `m[k] = v`: replace in place or append. -/
def setA {α : Type} : List (String × α) → String → α → List (String × α)
  | [], k, v => [(k, v)]
  | p :: m, k, v => if p.1 = k then (k, v) :: m else p :: setA m k v

/-- Python `del m[k]` (on the dicts here, applied only when the key exists). -/
def delA {α : Type} (m : List (String × α)) (k : String) : List (String × α) :=
  m.filter (fun p => p.1 ≠ k)

/-- Python `set.add`. -/
def setAdd (l : List String) (x : String) : List String :=
  if x ∈ l then l else l ++ [x]

/-- Python `set.discard`. -/
def setDiscard (l : List String) (x : String) : List String :=
  l.filter (fun y => y ≠ x)

/-- The `ConnectionManager` registry state. -/
structure ConnectionManager where
  active_connections : List (String × Nat)
  user_channels : List (String × List String)
  channel_users : List (String × List String)
deriving DecidableEq

/-- `ConnectionManager.connect`: accept the socket and register it as the
user's sole active connection. -/
def connect (st : ConnectionManager) (websocket : Nat) (user_id : String) :
    ConnectionManager :=
  { st with active_connections := setA st.active_connections user_id websocket }

/-- `ConnectionManager.disconnect`: drop the registry entry, then remove the
user from every channel index it was part of and delete its channel set. -/
def disconnect (st : ConnectionManager) (user_id : String) : ConnectionManager :=
  let active :=
    if hasKey st.active_connections user_id then delA st.active_connections user_id
    else st.active_connections
  match lookupA st.user_channels user_id with
  | none => { st with active_connections := active }
  | some chans =>
      { active_connections := active,
        user_channels := delA st.user_channels user_id,
        channel_users := chans.foldl (fun cu ch =>
          if hasKey cu ch then
            cu.map (fun p => if p.1 = ch then (p.1, setDiscard p.2 user_id) else p)
          else cu) st.channel_users }

/-- `ConnectionManager.add_user_to_channel`. -/
def add_user_to_channel (st : ConnectionManager) (user_id channel_id : String) :
    ConnectionManager :=
  let uc :=
    match lookupA st.user_channels user_id with
    | none => setA st.user_channels user_id (setAdd [] channel_id)
    | some l => setA st.user_channels user_id (setAdd l channel_id)
  let cu :=
    match lookupA st.channel_users channel_id with
    | none => setA st.channel_users channel_id (setAdd [] user_id)
    | some l => setA st.channel_users channel_id (setAdd l user_id)
  { st with user_channels := uc, channel_users := cu }

/-- `ConnectionManager.broadcast_to_channel`: the user ids that actually
receive the payload (subscribed, not excluded, currently connected). -/
def broadcast_recipients (st : ConnectionManager) (channel_id : String)
    (exclude_user : Option String) : List String :=
  match lookupA st.channel_users channel_id with
  | none => []
  | some users =>
      users.filter (fun u =>
        decide (exclude_user ≠ some u) && hasKey st.active_connections u)

/-- `ConnectionManager.notify_user_status`: the (channel, recipient) pairs of
the `user_status` deliveries, one broadcast per channel the user is currently
subscribed to. -/
def notify_user_status_events (st : ConnectionManager) (user_id : String) :
    List (String × String) :=
  match lookupA st.user_channels user_id with
  | none => []
  | some chans =>
      chans.foldr (fun ch acc =>
        (broadcast_recipients st ch none).map (fun r => (ch, r)) ++ acc) []

/-- `websocket_endpoint`'s disconnect path in `src/main.py`: first
`manager.disconnect(user_id)`, then `manager.notify_user_status(user_id,
"offline")`, whose deliveries (all carrying status `"offline"`) are returned
alongside the final state. -/
def websocket_on_disconnect (st : ConnectionManager) (user_id : String) :
    ConnectionManager × List (String × String) :=
  let st' := disconnect st user_id
  (st', notify_user_status_events st' user_id)

/-- Key semantics of Python dict assignment on the association-list model. -/
theorem lookupA_setA {α : Type} (m : List (String × α)) (k : String) (v : α)
    (o : String) :
    lookupA (setA m k v) o = if o = k then some v else lookupA m o := by
  induction m with
  | nil =>
      by_cases h : o = k
      · simp [setA, lookupA, h]
      · have h' : ¬ k = o := fun hh => h hh.symm
        simp [setA, lookupA, h, h']
  | cons p m ih =>
      by_cases hpk : p.1 = k
      · by_cases hok : o = k
        · simp [setA, lookupA, hpk, hok]
        · have h1 : ¬ k = o := fun h => hok h.symm
          have h2 : ¬ p.1 = o := fun h => hok (hpk.symm.trans h).symm
          simp [setA, lookupA, hpk, hok, h1, h2]
      · by_cases hpo : p.1 = o
        · have h3 : ¬ o = k := fun h => hpk (hpo.trans h)
          simp [setA, lookupA, hpk, hpo, h3]
        · simp [setA, lookupA, hpk, hpo, ih]

/-- Deleting a key makes its lookup fail. -/
theorem lookupA_delA_self {α : Type} (m : List (String × α)) (k : String) :
    lookupA (delA m k) k = none := by
  induction m with
  | nil => rfl
  | cons p m ih =>
      by_cases h : p.1 = k <;>
        simp [delA, List.filter_cons, h, lookupA] <;>
          simpa [delA] using ih

/-- After the handler's `disconnect`, the user's `user_channels` entry is gone,
so the subsequent offline `notify_user_status` emits no delivery at all. -/
theorem notify_after_disconnect_empty (st : ConnectionManager) (uid : String) :
    notify_user_status_events (disconnect st uid) uid = [] := by
  unfold disconnect
  cases h : lookupA st.user_channels uid with
  | none => simp [notify_user_status_events, h]
  | some chans => simp [notify_user_status_events, lookupA_delA_self]

/-- A concrete registry: alice and bob both connected and both subscribed to
channel c1. -/
def exampleRegistry : ConnectionManager :=
  { active_connections := [("alice", 1), ("bob", 2)],
    user_channels := [("alice", ["c1"]), ("bob", ["c1"])],
    channel_users := [("c1", ["alice", "bob"])] }

/-- C3 (code bug): the handler announces `offline` only after `disconnect` has
already deleted the user's channel subscriptions, so no `user_status` offline
event is ever delivered: in general the delivery list is empty, and in the
concrete registry — where a broadcast to c1 would reach both alice and bob —
alice's disconnect delivers the offline event to nobody, in particular not to
bob. -/
theorem C3_offline_event_never_delivered :
    (∀ st uid, (websocket_on_disconnect st uid).2 = []) ∧
    broadcast_recipients exampleRegistry "c1" none = ["alice", "bob"] ∧
    (websocket_on_disconnect exampleRegistry "alice").2 = [] :=
  ⟨fun st uid => notify_after_disconnect_empty st uid, by decide, by decide⟩

/-- C10: `connect` registers the socket as the user's sole connection,
replacing any previous registry entry for that user, leaves every other user's
registry entry alone, and leaves both channel-subscription index maps
unchanged — so the user's recorded channel subscriptions survive a reconnect. -/
theorem C10_connect_frame (st : ConnectionManager) (ws : Nat) (uid : String) :
    (connect st ws uid).user_channels = st.user_channels ∧
    (connect st ws uid).channel_users = st.channel_users ∧
    lookupA (connect st ws uid).active_connections uid = some ws ∧
    (∀ o, lookupA (connect st ws uid).active_connections o =
      if o = uid then some ws else lookupA st.active_connections o) ∧
    (∀ ch, ch ∈ ((lookupA (connect st ws uid).user_channels uid).getD []) ↔
      ch ∈ ((lookupA st.user_channels uid).getD [])) := by
  refine ⟨rfl, rfl, ?_, ?_, fun ch => Iff.rfl⟩
  · simpa using lookupA_setA st.active_connections uid ws uid
  · exact fun o => lookupA_setA st.active_connections uid ws o

/-! ## LLM handler (`src/llm/llm_handler.py`)

`format_query_results` renders a warehouse result list (rows are dicts from
column name to a Python value) as chat text; `extract_sql_from_response`
recovers SQL from a completion, via the regexes `(backtick×3)sql\n(.*?)\n(backtick×3)`
and `(SELECT\s+.*?(?:;|$))`, both DOTALL and IGNORECASE, taking the first
(leftmost) match.
-/

/-- A Python value in a result row, with its `str()` coercion. -/
inductive PyVal
  | vstr (s : String)
  | vint (n : Int)
  | vnone
deriving DecidableEq

/-- Python `str()` on a row value. -/
def pyToStr : PyVal → String
  | .vstr s => s
  | .vint n => toString n
  | .vnone => "None"

/-- `str(row.get(col, ""))`. -/
def rowGet (row : List (String × PyVal)) (col : String) : String :=
  match lookupA row col with
  | none => ""
  | some v => pyToStr v

/-- Python `sep.join(parts)`. -/
def joinSep (sep : String) : List String → String
  | [] => ""
  | [x] => x
  | x :: xs => x ++ sep ++ joinSep sep xs

/-- `LLMHandler.format_query_results`. -/
def format_query_results (results : List (List (String × PyVal)))
    (max_rows : Nat := 10) : String :=
  match results with
  | [] => "No results found."
  | first :: _ =>
      let columns := first.map (·.1)
      let header := joinSep " | " columns
      let out1 := "Found " ++ toString results.length ++ " rows. Showing first " ++
        toString (min results.length max_rows) ++ ":\n\n"
      let out2 := out1 ++ header ++ "\n" ++
        String.mk (List.replicate header.length '-') ++ "\n"
      let out3 := out2 ++ String.join ((results.take max_rows).map (fun row =>
        joinSep " | " (columns.map (fun c => rowGet row c)) ++ "\n"))
      if results.length > max_rows then
        out3 ++ "\n... and " ++ toString (results.length - max_rows) ++ " more rows"
      else out3

/-- The output text exactly as claim C5 describes it: header line, dashed
separator of the header's length, up to `max_rows` data rows, then the
more-rows line exactly when the result set exceeds `max_rows` — with no
summary preamble. -/
def claimedTableText (results : List (List (String × PyVal)))
    (max_rows : Nat) : String :=
  match results with
  | [] => "No results found."
  | first :: _ =>
      let columns := first.map (·.1)
      let header := joinSep " | " columns
      let body := header ++ "\n" ++
        String.mk (List.replicate header.length '-') ++ "\n" ++
        String.join ((results.take max_rows).map (fun row =>
          joinSep " | " (columns.map (fun c => rowGet row c)) ++ "\n"))
      if results.length > max_rows then
        body ++ "... and " ++ toString (results.length - max_rows) ++ " more rows"
      else body

/-- The output text as the amended claim describes it: a summary line
`Found {N} rows. Showing first {M}:` and a blank line, then the header line,
the dashed separator, up to `max_rows` newline-terminated data rows, then a
blank line and the more-rows line exactly when the result set exceeds
`max_rows`. -/
def amendedTableText (results : List (List (String × PyVal)))
    (max_rows : Nat) : String :=
  match results with
  | [] => "No results found."
  | first :: _ =>
      let columns := first.map (·.1)
      let header := joinSep " | " columns
      let summary := "Found " ++ toString results.length ++ " rows. Showing first " ++
        toString (min results.length max_rows) ++ ":"
      let separator := String.mk (List.replicate header.length '-')
      let dataRows := String.join ((results.take max_rows).map (fun row =>
        joinSep " | " (columns.map (fun c => rowGet row c)) ++ "\n"))
      let moreRows :=
        if results.length > max_rows then
          "\n... and " ++ toString (results.length - max_rows) ++ " more rows"
        else ""
      summary ++ "\n\n" ++ header ++ "\n" ++ separator ++ "\n" ++ dataRows ++ moreRows

/-- C5 counterexample: for the one-row result `[{"A": "1"}]` the formatted
output is not the text the claim describes (the code prepends a
`Found 1 rows. Showing first 1:` summary and a blank line). -/
theorem C5_format_differs_from_claimed :
    format_query_results [[("A", PyVal.vstr "1")]] 10 ≠
      claimedTableText [[("A", PyVal.vstr "1")]] 10 ∧
    format_query_results [[("A", PyVal.vstr "1")]] 10 =
      "Found 1 rows. Showing first 1:\n\nA\n-\n1\n" :=
  ⟨by decide, by decide⟩

/-- C5 (amended): the empty result list formats as `No results found.`, and a
non-empty result list formats as the summary line, a blank line, the header,
the separator, up to `max_rows` data rows, and the more-rows trailer exactly
when the result set exceeds `max_rows`. -/
theorem C5_format_query_results_amended
    (results : List (List (String × PyVal))) (max_rows : Nat) :
    format_query_results results max_rows = amendedTableText results max_rows := by
  cases results with
  | nil => rfl
  | cons first rest =>
      have h1 : (":" : String) ++ "\n\n" = ":\n\n" := rfl
      unfold format_query_results amendedTableText
      by_cases h : max_rows < rest.length + 1 <;>
        simp [h, ← h1, String.append_assoc, String.append_empty]

/-- Case-insensitive character comparison (regex `IGNORECASE`). -/
def ciEq (a b : Char) : Bool :=
  a.toUpper = b.toUpper

/-- `ciLead pat s`: `s` starts with `pat`, case-insensitively. -/
def ciLead : List Char → List Char → Bool
  | [], _ => true
  | _ :: _, [] => false
  | p :: ps, c :: cs => ciEq p c && ciLead ps cs

/-- The lazily matched group `(.*?)` of the fenced-block regex: the characters
before the first occurrence of newline-plus-three-backticks, or `none` when no
such terminator follows. -/
def fencedBody : List Char → Option (List Char)
  | [] => none
  | c :: rest =>
      if hasLead "\n```".data (c :: rest) then some []
      else (fencedBody rest).map (fun l => c :: l)

/-- Leftmost match of the DOTALL+IGNORECASE regex for a fenced block tagged
`sql`: at the first position where the opener (three backticks, `sql`,
newline) matches case-insensitively and a terminator follows, the group is
everything in between. -/
def findFencedSql : List Char → Option (List Char)
  | [] => none
  | c :: rest =>
      if ciLead "```sql\n".data (c :: rest) then
        match fencedBody ((c :: rest).drop 7) with
        | some content => some content
        | none => findFencedSql rest
      else findFencedSql rest

/-- The lazy tail `.*?(?:;|$)` of the bare-SELECT regex, scanned from the end
of the whitespace run: stop at (and include) the first `;`, stop before a
final newline, or run to the end of the text. -/
def selectBody : List Char → List Char
  | [] => []
  | [c] => if c = ';' then [c] else if c = '\n' then [] else [c]
  | c :: rest => if c = ';' then [c] else c :: selectBody rest

/-- Leftmost match of the DOTALL+IGNORECASE regex `(SELECT\s+.*?(?:;|$))`: at
the first position where `SELECT` matches case-insensitively and is followed
by at least one whitespace character, capture `SELECT`, the maximal greedy
whitespace run, and the lazy tail. -/
def findSelectStmt : List Char → Option (List Char)
  | [] => none
  | c :: rest =>
      if ciLead "SELECT".data (c :: rest) &&
          (match (c :: rest).drop 6 with
            | d :: _ => pyIsSpace d
            | [] => false) then
        some ((c :: rest).take 6 ++
          ((c :: rest).drop 6).takeWhile pyIsSpace ++
          selectBody (((c :: rest).drop 6).dropWhile pyIsSpace))
      else findSelectStmt rest

/-- `LLMHandler.extract_sql_from_response`. -/
def extract_sql_from_response (response : String) : Option String :=
  match findFencedSql response.data with
  | some m => some (pyStrip (String.mk m))
  | none =>
      match findSelectStmt response.data with
      | some m => some (pyStrip (String.mk m))
      | none => none

/-- C6: extraction first tries the fenced SQL block and returns its trimmed
content; if no fenced block matches it returns the trimmed bare-SELECT match;
if neither matches it returns nothing. -/
theorem C6_extract_sql_structure (response : String) :
    (∀ m, findFencedSql response.data = some m →
      extract_sql_from_response response = some (pyStrip (String.mk m))) ∧
    (findFencedSql response.data = none →
      ∀ m, findSelectStmt response.data = some m →
        extract_sql_from_response response = some (pyStrip (String.mk m))) ∧
    (findFencedSql response.data = none → findSelectStmt response.data = none →
      extract_sql_from_response response = none) := by
  refine ⟨fun m hm => ?_, fun hn m hm => ?_, fun hn hn' => ?_⟩ <;>
    simp [extract_sql_from_response, *]

/-- Witness for C6 on three concrete completions: one with a fenced SQL
block, one with only a bare `SELECT ... ;`, and one with neither. -/
theorem C6_extract_sql_structure_witness :
    extract_sql_from_response
        "Here you go:\n```sql\nSELECT a FROM t\n```\nDone." =
      some "SELECT a FROM t" ∧
    extract_sql_from_response "Try SELECT a FROM t; after that." =
      some "SELECT a FROM t;" ∧
    extract_sql_from_response "I cannot help with that." = none :=
  ⟨((C6_extract_sql_structure
        "Here you go:\n```sql\nSELECT a FROM t\n```\nDone.").1
      "SELECT a FROM t".data (by decide)).trans (by decide),
   ((C6_extract_sql_structure "Try SELECT a FROM t; after that.").2.1
      (by decide) "SELECT a FROM t;".data (by decide)).trans (by decide),
   (C6_extract_sql_structure "I cannot help with that.").2.2
      (by decide) (by decide)⟩

/-! ## Persisted entities (`src/models/`) and API operations (`src/api/`)

Rows carry the fields the claims mention; identifiers (UUIDs in the source)
are opaque `Nat`s, timestamps are `Nat`s, HTTP errors are (status, detail)
pairs. -/

/-- The reserved all-zero system/assistant author sentinel
`UUID("00000000-0000-0000-0000-000000000000")`. -/
def systemUserId : Nat := 0

/-- `models.User` row. -/
structure User where
  id : Nat
  email : String
  username : String
  full_name : Option String
  hashed_password : String
  is_active : Bool
deriving DecidableEq

/-- `models.Channel` row. -/
structure Channel where
  id : Nat
deriving DecidableEq

/-- `models.ChannelMember` row. -/
structure ChannelMember where
  channel_id : Nat
  user_id : Nat
  role : String
deriving DecidableEq

/-- `models.Message` row. -/
structure Message where
  id : Nat
  channel_id : Nat
  author_id : Nat
  thread_id : Option Nat
  content : String
  message_type : String
  created_at : Nat
deriving DecidableEq

/-- `models.Thread` row. -/
structure Thread where
  id : Nat
  channel_id : Nat
deriving DecidableEq

/-- The relational store. -/
structure DB where
  users : List User
  channels : List Channel
  channel_members : List ChannelMember
  messages : List Message
  threads : List Thread
deriving DecidableEq

/-- The public profile shape returned by `register` — by construction it has
no password-hash field. -/
structure UserResponse where
  id : Nat
  email : String
  username : String
  full_name : Option String
  is_active : Bool
deriving DecidableEq

/-- Modelled from the spec: `core/security.py` (the credential and token
service) is not under `src/`; §4.4 specifies `get_password_hash` as a one-way
transform of the plaintext into a stored hash, never the plaintext itself.
Modelled as a tagging transform, which like any real hash differs from its
input. -/
def get_password_hash (password : String) : String :=
  "$hash$" ++ password

/-- How `register` can fail: the raised `HTTPException`, or SQLAlchemy's
`MultipleResultsFound` escaping `scalar_one_or_none` uncaught (an HTTP 500 at
the framework boundary). -/
inductive RegisterFailure
  | http (status : Nat) (detail : String)
  | multipleResultsFound
deriving DecidableEq

/-- `api/auth.py register`: runs `SELECT ... WHERE email = e OR username = u`
and applies `scalar_one_or_none()` — `None` for zero rows (proceed to create
the active user with a hashed password and return its public profile), the
row for exactly one (raise the 400 duplicate error), and a raised
`MultipleResultsFound` for two or more rows, which nothing catches. `newId`
stands for the generated UUID. -/
def register (db : DB) (newId : Nat) (email username password : String)
    (full_name : Option String) : Except RegisterFailure (UserResponse × DB) :=
  match db.users.filter (fun u => u.email = email || u.username = username) with
  | [] =>
      let user : User := ⟨newId, email, username, full_name,
        get_password_hash password, true⟩
      .ok (⟨user.id, user.email, user.username, user.full_name, user.is_active⟩,
        { db with users := db.users ++ [user] })
  | [_] => .error (.http 400 "Email or username already registered")
  | _ :: _ :: _ => .error .multipleResultsFound

/-- Membership check used by the message, thread and channel endpoints. -/
def is_member (db : DB) (cid uid : Nat) : Bool :=
  db.channel_members.any (fun m => m.channel_id = cid && m.user_id = uid)

/-- `api/channels.py join_channel`. -/
def join_channel (db : DB) (current_user cid : Nat) : Except (Nat × String) DB :=
  if db.channels.any (fun c => c.id = cid) = false then
    .error (404, "Channel not found")
  else if db.channel_members.any
      (fun m => m.channel_id = cid && m.user_id = current_user) then
    .error (400, "Already a member of this channel")
  else
    .ok { db with channel_members :=
      db.channel_members ++ [⟨cid, current_user, "member"⟩] }

/-- Number of ChannelMember rows linking `uid` to `cid`. -/
def memberCount (db : DB) (cid uid : Nat) : Nat :=
  (db.channel_members.filter
    (fun m => m.channel_id = cid && m.user_id = uid)).length

/-- `ORDER BY created_at DESC` as a sorting relation on rows keyed by
`created_at`. -/
def newestFirst {α : Type} (key : α → Nat) (a b : α) : Prop :=
  key b ≤ key a

instance {α : Type} (key : α → Nat) : DecidableRel (newestFirst key) :=
  fun a b => Nat.decLe (key b) (key a)

instance {α : Type} (key : α → Nat) : IsTotal α (newestFirst key) :=
  ⟨fun a b => Nat.le_total (key b) (key a)⟩

instance {α : Type} (key : α → Nat) : IsTrans α (newestFirst key) :=
  ⟨fun _ _ _ h1 h2 => Nat.le_trans h2 h1⟩

/-- The optional strictly-older-than cursor of the channel listing. -/
def beforeOk (before : Option Nat) (m : Message) : Bool :=
  match before with
  | none => true
  | some b => m.created_at < b

/-- `api/messages.py get_channel_messages`: Forbidden unless a member; inner
join of the channel's (cursor-filtered) messages with their authors, newest
first, capped at `limit`, reversed to chronological order; each returned row
pairs the message with the author's username. -/
def get_channel_messages (db : DB) (uid cid : Nat) (limit : Nat := 50)
    (before : Option Nat := none) :
    Except (Nat × String) (List (Message × String)) :=
  if is_member db cid uid = false then
    .error (403, "Not a member of this channel")
  else
    let base := db.messages.filter (fun m => m.channel_id = cid && beforeOk before m)
    let joined := base.filterMap (fun m =>
      (db.users.find? (fun u => u.id = m.author_id)).map (fun u => (m, u)))
    let sorted := List.insertionSort (newestFirst (fun p => p.1.created_at)) joined
    .ok (((sorted.take limit).reverse).map (fun p => (p.1, p.2.username)))

/-- `api/threads.py get_thread_messages`: Not-Found for an unknown thread,
Forbidden unless a member of its channel; outer join of the thread's messages
with their authors (label `"System"` when no user row matches), newest first,
capped at `limit`, reversed to chronological order. -/
def get_thread_messages (db : DB) (uid tid : Nat) (limit : Nat := 50) :
    Except (Nat × String) (List (Message × String)) :=
  match db.threads.find? (fun t => t.id = tid) with
  | none => .error (404, "Thread not found")
  | some thread =>
      if is_member db thread.channel_id uid = false then
        .error (403, "Not a member of this channel")
      else
        let base := db.messages.filter (fun m => m.thread_id = some tid)
        let joined := base.map (fun m =>
          (m, db.users.find? (fun u => u.id = m.author_id)))
        let sorted := List.insertionSort (newestFirst (fun p => p.1.created_at)) joined
        .ok (((sorted.take limit).reverse).map (fun p =>
          (p.1, match p.2 with | some u => u.username | none => "System")))

/-- A store holding one registered user. -/
def exampleAuthDB : DB :=
  { users := [⟨1, "a@x.com", "alice", none, "$hash$pw", true⟩],
    channels := [], channel_members := [], messages := [], threads := [] }

/-- A store where alice holds the email `a@x.com` and a second, distinct user
bob holds the username `bob`. -/
def exampleSplitDB : DB :=
  { users := [⟨1, "a@x.com", "alice", none, "$hash$pw", true⟩,
              ⟨2, "b@x.com", "bob", none, "$hash$pw2", true⟩],
    channels := [], channel_members := [], messages := [], threads := [] }

/-- C7 counterexample: registering with alice's email and bob's username makes
the duplicate lookup return two rows, so `scalar_one_or_none` raises
`MultipleResultsFound` — an unhandled server error, not the Conflict (400)
failure the claim states, although both fields are already taken. -/
theorem C7_register_conflict_counterexample :
    register exampleSplitDB 3 "a@x.com" "bob" "pw" none =
      .error .multipleResultsFound ∧
    ¬ register exampleSplitDB 3 "a@x.com" "bob" "pw" none =
      .error (.http 400 "Email or username already registered") := by
  refine ⟨rfl, fun h => ?_⟩
  have h0 : register exampleSplitDB 3 "a@x.com" "bob" "pw" none =
      .error .multipleResultsFound := rfl
  rw [h0] at h
  exact absurd (Except.error.inj h) (by decide)

/-- C7 (amended): registration creates an active user iff no existing user
holds the email or the username, storing the password's hash — which differs
from the password — and returning the hash-free public profile; when the
duplicate lookup matches exactly one existing row it fails with the Conflict
error (HTTP 400, "Email or username already registered"), when it matches two
or more distinct rows it fails with the uncaught multiple-results error, and
in every duplicate case some failure occurs and no account is created. -/
theorem C7_register_uniqueness_amended (db : DB) (newId : Nat)
    (email username password : String) (full_name : Option String) :
    ((db.users.filter
        (fun u => u.email = email || u.username = username)).length = 1 →
      register db newId email username password full_name =
        .error (.http 400 "Email or username already registered")) ∧
    (2 ≤ (db.users.filter
        (fun u => u.email = email || u.username = username)).length →
      register db newId email username password full_name =
        .error .multipleResultsFound) ∧
    ((∃ u ∈ db.users, u.email = email ∨ u.username = username) →
      ∃ e, register db newId email username password full_name = .error e) ∧
    ((∀ u ∈ db.users, u.email ≠ email ∧ u.username ≠ username) →
      register db newId email username password full_name =
        .ok (⟨newId, email, username, full_name, true⟩,
          { db with users := db.users ++
              [⟨newId, email, username, full_name,
                get_password_hash password, true⟩] }) ∧
      get_password_hash password ≠ password) := by
  refine ⟨?_, ?_, ?_, ?_⟩
  · intro hlen
    obtain ⟨a, ha⟩ := List.length_eq_one.mp hlen
    unfold register
    rw [ha]
  · intro hlen
    cases hf : db.users.filter
        (fun u => u.email = email || u.username = username) with
    | nil => rw [hf] at hlen; simp at hlen
    | cons a t =>
        cases t with
        | nil => rw [hf] at hlen; simp at hlen
        | cons b t2 => unfold register; rw [hf]
  · rintro ⟨u, hu, hor⟩
    have hmem : u ∈ db.users.filter
        (fun u => u.email = email || u.username = username) :=
      List.mem_filter.mpr ⟨hu, by rcases hor with h | h <;> simp [h]⟩
    cases hf : db.users.filter
        (fun u => u.email = email || u.username = username) with
    | nil => rw [hf] at hmem; exact absurd hmem (List.not_mem_nil u)
    | cons a t =>
        cases t with
        | nil => exact ⟨_, by unfold register; rw [hf]⟩
        | cons b t2 => exact ⟨_, by unfold register; rw [hf]⟩
  · intro h
    have hnil : db.users.filter
        (fun u => u.email = email || u.username = username) = [] :=
      List.filter_eq_nil_iff.mpr (fun u hu => by
        simp [(h u hu).1, (h u hu).2])
    refine ⟨by unfold register; rw [hnil], fun hc => ?_⟩
    have h2 := congrArg String.length hc
    unfold get_password_hash at h2
    rw [String.length_append] at h2
    have h3 : ("$hash$" : String).length = 6 := rfl
    rw [h3] at h2
    omega

/-- Witness for the amended C7: one matching row yields the Conflict error,
two distinct matching rows yield the multiple-results failure, and a fresh
email/username pair is created with the profile returned. -/
theorem C7_register_uniqueness_amended_witness :
    register exampleAuthDB 2 "a@x.com" "bob" "pw2" none =
      .error (.http 400 "Email or username already registered") ∧
    register exampleSplitDB 4 "a@x.com" "bob" "pw" none =
      .error .multipleResultsFound ∧
    register exampleAuthDB 2 "b@x.com" "bob" "pw2" none =
      .ok (⟨2, "b@x.com", "bob", none, true⟩,
        { exampleAuthDB with users := exampleAuthDB.users ++
            [⟨2, "b@x.com", "bob", none, get_password_hash "pw2", true⟩] }) ∧
    get_password_hash "pw2" ≠ "pw2" :=
  ⟨(C7_register_uniqueness_amended exampleAuthDB 2 "a@x.com" "bob" "pw2"
      none).1 (by decide),
   (C7_register_uniqueness_amended exampleSplitDB 4 "a@x.com" "bob" "pw"
      none).2.1 (by decide),
   ((C7_register_uniqueness_amended exampleAuthDB 2 "b@x.com" "bob" "pw2"
      none).2.2.2 (by decide)).1,
   ((C7_register_uniqueness_amended exampleAuthDB 2 "b@x.com" "bob" "pw2"
      none).2.2.2 (by decide)).2⟩

/-- C8: join returns Not-Found when the channel does not exist, Bad-Request
("Already a member of this channel") when a membership row already links the
caller to the channel, and otherwise appends exactly one membership row with
role `member`; after a successful join the (user, channel) membership count is
exactly one and a second join fails. -/
theorem C8_join_channel_guard (db : DB) (uid cid : Nat) :
    ((∀ c ∈ db.channels, c.id ≠ cid) →
      join_channel db uid cid = .error (404, "Channel not found")) ∧
    ((∃ c ∈ db.channels, c.id = cid) →
      ((∃ m ∈ db.channel_members, m.channel_id = cid ∧ m.user_id = uid) →
        join_channel db uid cid =
          .error (400, "Already a member of this channel")) ∧
      ((∀ m ∈ db.channel_members, ¬(m.channel_id = cid ∧ m.user_id = uid)) →
        join_channel db uid cid =
          .ok { db with channel_members :=
            db.channel_members ++ [⟨cid, uid, "member"⟩] })) ∧
    (∀ db', join_channel db uid cid = .ok db' →
      memberCount db' cid uid = 1 ∧
      join_channel db' uid cid =
        .error (400, "Already a member of this channel")) := by
  refine ⟨?_, ?_, ?_⟩
  · intro h
    unfold join_channel
    rw [if_pos]
    simp only [List.any_eq_false]
    intro c hc
    simp [h c hc]
  · rintro ⟨c, hc, hcid⟩
    have hch : db.channels.any (fun c => c.id = cid) = true :=
      List.any_eq_true.mpr ⟨c, hc, by simp [hcid]⟩
    constructor
    · rintro ⟨m, hm, h1, h2⟩
      unfold join_channel
      rw [if_neg (by simp [hch]), if_pos]
      exact List.any_eq_true.mpr ⟨m, hm, by simp [h1, h2]⟩
    · intro h
      unfold join_channel
      rw [if_neg (by simp [hch]), if_neg]
      simp only [List.any_eq_true]
      rintro ⟨m, hm, hmm⟩
      exact h m hm (by simpa using hmm)
  · intro db' hok
    unfold join_channel at hok
    split at hok
    · exact absurd hok (by simp)
    · next hch =>
        split at hok
        · exact absurd hok (by simp)
        · next hmem =>
            have hdb' : db' = { db with channel_members :=
                db.channel_members ++ [⟨cid, uid, "member"⟩] } := by
              cases hok; rfl
            subst hdb'
            have hmem' : db.channel_members.any
                (fun m => m.channel_id = cid && m.user_id = uid) = false := by
              cases hb : db.channel_members.any
                  (fun m => m.channel_id = cid && m.user_id = uid)
              · rfl
              · exact absurd hb hmem
            have hch' : db.channels.any (fun c => c.id = cid) = true := by
              cases hb : db.channels.any (fun c => c.id = cid)
              · exact absurd hb hch
              · rfl
            constructor
            · unfold memberCount
              simp only [List.filter_append]
              rw [List.filter_eq_nil_iff.mpr (by
                intro m hm
                have := List.any_eq_false.mp hmem' m hm
                simpa using this)]
              simp
            · simp only [join_channel]
              rw [if_neg (by simp [hch']), if_pos (by simp [List.any_append])]

/-- A store holding one channel and no memberships. -/
def exampleJoinDB : DB :=
  { users := [], channels := [⟨1⟩], channel_members := [], messages := [],
    threads := [] }

/-- The store after user 7 joins channel 1. -/
def exampleJoinDB2 : DB :=
  { exampleJoinDB with channel_members := [⟨1, 7, "member"⟩] }

/-- Witness for C8: user 7 joins channel 1 once successfully, the membership
count is one, and the second join fails. -/
theorem C8_join_channel_guard_witness :
    join_channel exampleJoinDB 7 1 = .ok exampleJoinDB2 ∧
    memberCount exampleJoinDB2 1 7 = 1 ∧
    join_channel exampleJoinDB2 7 1 =
      .error (400, "Already a member of this channel") :=
  have h : join_channel exampleJoinDB 7 1 = .ok exampleJoinDB2 := rfl
  ⟨h, ((C8_join_channel_guard exampleJoinDB 7 1).2.2 exampleJoinDB2 h).1,
    ((C8_join_channel_guard exampleJoinDB 7 1).2.2 exampleJoinDB2 h).2⟩

/-! ### Properties of the sort / cap / reverse / render pipeline shared by the
two message listings -/

/-- Every output row of the pipeline is the rendering of a joined element. -/
theorem mem_of_mem_pipeline {α β : Type} (r : α → α → Prop) [DecidableRel r]
    (l : List α) (n : Nat) (f : α → β) (y : β)
    (hy : y ∈ ((List.insertionSort r l).take n).reverse.map f) :
    ∃ p ∈ l, f p = y := by
  obtain ⟨p, hp, hf⟩ := List.mem_map.mp hy
  rw [List.mem_reverse] at hp
  exact ⟨p, (List.perm_insertionSort r l).mem_iff.mp (List.take_subset n _ hp), hf⟩

/-- When the join fits under the cap, the pipeline renders every joined
element. -/
theorem mem_pipeline_of_le {α β : Type} (r : α → α → Prop) [DecidableRel r]
    (l : List α) (n : Nat) (f : α → β) (p : α)
    (hlen : l.length ≤ n) (hp : p ∈ l) :
    f p ∈ ((List.insertionSort r l).take n).reverse.map f := by
  have hs : (List.insertionSort r l).length = l.length :=
    (List.perm_insertionSort r l).length_eq
  rw [List.take_of_length_le (by rw [hs]; exact hlen)]
  exact List.mem_map_of_mem f
    (List.mem_reverse.mpr ((List.perm_insertionSort r l).mem_iff.mpr hp))

/-- The pipeline emits at most `n` rows. -/
theorem pipeline_length_le {α β : Type} (r : α → α → Prop) [DecidableRel r]
    (l : List α) (n : Nat) (f : α → β) :
    (((List.insertionSort r l).take n).reverse.map f).length ≤ n := by
  simp only [List.length_map, List.length_reverse, List.length_take]
  exact Nat.min_le_left _ _

/-- Sorting newest-first, capping and reversing yields rows in chronological
(oldest-first) order of the rendered key. -/
theorem pipeline_chronological {α β : Type} (key : α → Nat) (l : List α)
    (n : Nat) (f : α → β) (g : β → Nat) (hfg : ∀ p, g (f p) = key p) :
    List.Pairwise (fun a b => g a ≤ g b)
      (((List.insertionSort (newestFirst key) l).take n).reverse.map f) := by
  have h1 : List.Sorted (newestFirst key)
      (List.insertionSort (newestFirst key) l) :=
    List.sorted_insertionSort _ _
  have h2 := List.Pairwise.sublist (List.take_sublist n _) h1
  have h3 := List.pairwise_reverse.mpr h2
  refine List.pairwise_map.mpr (h3.imp ?_)
  intro a b h
  rw [hfg, hfg]
  exact h

/-- A joined element missing from the pipeline's output forces the output to
be full (exactly `n` rows) and every emitted row to be at least as new. -/
theorem pipeline_drop_newest {α β : Type} (key : α → Nat) (l : List α)
    (n : Nat) (f : α → β) (g : β → Nat) (hfg : ∀ p, g (f p) = key p) (p : α)
    (hp : p ∈ l)
    (hnot : f p ∉ ((List.insertionSort (newestFirst key) l).take n).reverse.map f) :
    (((List.insertionSort (newestFirst key) l).take n).reverse.map f).length = n ∧
    ∀ y ∈ ((List.insertionSort (newestFirst key) l).take n).reverse.map f,
      key p ≤ g y := by
  have hpin : p ∈ List.insertionSort (newestFirst key) l :=
    (List.perm_insertionSort _ l).mem_iff.mpr hp
  have hsplit : p ∈ (List.insertionSort (newestFirst key) l).take n ++
      (List.insertionSort (newestFirst key) l).drop n := by
    rw [List.take_append_drop]; exact hpin
  have hpd : p ∈ (List.insertionSort (newestFirst key) l).drop n := by
    rcases List.mem_append.mp hsplit with h | h
    · exact absurd (List.mem_map_of_mem f (List.mem_reverse.mpr h)) hnot
    · exact h
  constructor
  · have hlt : n < (List.insertionSort (newestFirst key) l).length := by
      by_contra hle
      push_neg at hle
      rw [List.drop_eq_nil_of_le hle] at hpd
      exact absurd hpd (List.not_mem_nil p)
    simp only [List.length_map, List.length_reverse, List.length_take]
    omega
  · intro y hy
    obtain ⟨q, hq, rfl⟩ := List.mem_map.mp hy
    rw [List.mem_reverse] at hq
    have hsorted : List.Sorted (newestFirst key)
        (List.insertionSort (newestFirst key) l) :=
      List.sorted_insertionSort _ _
    rw [hfg]
    exact hsorted.rel_of_mem_take_of_mem_drop hq hpd

/-- C9: the channel message listing is Forbidden for a non-member, and for a
member returns at most `limit` rows in chronological order, each a message of
the channel strictly older than the cursor when one is supplied; any eligible
joined message missing from the rows can only have been cut by the cap, i.e.
the rows are full and all at least as new as it. -/
theorem C9_channel_listing (db : DB) (uid cid limit : Nat)
    (before : Option Nat) :
    (is_member db cid uid = false →
      get_channel_messages db uid cid limit before =
        .error (403, "Not a member of this channel")) ∧
    (∀ rows, get_channel_messages db uid cid limit before = .ok rows →
      rows.length ≤ limit ∧
      List.Pairwise
        (fun a b : Message × String => a.1.created_at ≤ b.1.created_at) rows ∧
      (∀ r ∈ rows, r.1.channel_id = cid ∧
        ∀ b, before = some b → r.1.created_at < b) ∧
      (∀ m ∈ db.messages, m.channel_id = cid →
        (∀ b, before = some b → m.created_at < b) →
        (db.users.find? (fun u => u.id = m.author_id)).isSome = true →
        m ∉ rows.map Prod.fst →
        rows.length = limit ∧
        ∀ r ∈ rows, m.created_at ≤ r.1.created_at)) := by
  constructor
  · intro h
    unfold get_channel_messages
    rw [if_pos h]
  · intro rows hok
    unfold get_channel_messages at hok
    by_cases hm : is_member db cid uid = false
    · rw [if_pos hm] at hok; exact absurd hok (by simp)
    · rw [if_neg hm] at hok
      have hrows := (Except.ok.inj hok).symm
      subst hrows
      refine ⟨pipeline_length_le _ _ _ _, ?_, ?_, ?_⟩
      · exact pipeline_chronological
          (fun p : Message × User => p.1.created_at) _ limit
          (fun p : Message × User => (p.1, p.2.username))
          (fun y : Message × String => y.1.created_at) (fun _ => rfl)
      · intro r hr
        obtain ⟨p, hp, hf⟩ := mem_of_mem_pipeline _ _ _ _ _ hr
        obtain ⟨m, hmb, heq⟩ := List.mem_filterMap.mp hp
        obtain ⟨u, _, hup⟩ := Option.map_eq_some'.mp heq
        have hm1 : p.1 = m := by rw [← hup]
        have hbase := List.mem_filter.mp hmb
        have hpred := hbase.2
        simp only [Bool.and_eq_true, decide_eq_true_eq] at hpred
        have hr1 : r.1 = m := by rw [← hf, hm1]
        refine ⟨by rw [hr1]; exact hpred.1, ?_⟩
        intro b hb
        rw [hr1]
        have := hpred.2
        rw [hb] at this
        simpa [beforeOk] using this
      · intro m hmm hmc hmbef hfind hnot
        obtain ⟨u, hu⟩ := Option.isSome_iff_exists.mp hfind
        have hmb : m ∈ db.messages.filter
            (fun m => m.channel_id = cid && beforeOk before m) := by
          refine List.mem_filter.mpr ⟨hmm, ?_⟩
          simp only [Bool.and_eq_true, decide_eq_true_eq]
          refine ⟨hmc, ?_⟩
          cases hb : before with
          | none => simp [beforeOk]
          | some b => simpa [beforeOk] using hmbef b hb
        have hpj : (m, u) ∈ (db.messages.filter
            (fun m => m.channel_id = cid && beforeOk before m)).filterMap
              (fun m => (db.users.find? (fun u => u.id = m.author_id)).map
                (fun u => (m, u))) :=
          List.mem_filterMap.mpr ⟨m, hmb, by rw [hu]; rfl⟩
        have hnot2 : (fun p : Message × User => (p.1, p.2.username)) (m, u) ∉
            ((List.insertionSort (newestFirst (fun p : Message × User =>
              p.1.created_at)) ((db.messages.filter
                (fun m => m.channel_id = cid && beforeOk before m)).filterMap
                  (fun m => (db.users.find? (fun u => u.id = m.author_id)).map
                    (fun u => (m, u))))).take limit).reverse.map
              (fun p => (p.1, p.2.username)) := by
          intro hc
          exact hnot (by simpa using List.mem_map_of_mem Prod.fst hc)
        have := pipeline_drop_newest (fun p : Message × User => p.1.created_at)
          _ limit (fun p => (p.1, p.2.username)) (fun y => y.1.created_at)
          (fun p => rfl) (m, u) hpj hnot2
        exact ⟨this.1, fun r hr => this.2 r hr⟩

/-- A text message by user 1 in channel 1 with id and timestamp `i`. -/
def mkMsg (i : Nat) : Message :=
  ⟨i, 1, 1, none, "m", "text", i⟩

/-- A store with one member and ten messages `m1..m10` posted in order. -/
def exampleListDB : DB :=
  { users := [⟨1, "a@x.com", "alice", none, "h", true⟩],
    channels := [⟨1⟩],
    channel_members := [⟨1, 1, "member"⟩],
    messages := [mkMsg 1, mkMsg 2, mkMsg 3, mkMsg 4, mkMsg 5,
                 mkMsg 6, mkMsg 7, mkMsg 8, mkMsg 9, mkMsg 10],
    threads := [] }

/-- Witness for C9: with messages `m1..m10` and `limit = 5`, no cursor, the
listing returns exactly `m6..m10` in chronological order, within the cap and
pairwise sorted. -/
theorem C9_channel_listing_witness :
    get_channel_messages exampleListDB 1 1 5 none =
      .ok [(mkMsg 6, "alice"), (mkMsg 7, "alice"), (mkMsg 8, "alice"),
           (mkMsg 9, "alice"), (mkMsg 10, "alice")] ∧
    ([(mkMsg 6, "alice"), (mkMsg 7, "alice"), (mkMsg 8, "alice"),
      (mkMsg 9, "alice"), (mkMsg 10, "alice")] :
        List (Message × String)).length ≤ 5 ∧
    List.Pairwise
      (fun a b : Message × String => a.1.created_at ≤ b.1.created_at)
      [(mkMsg 6, "alice"), (mkMsg 7, "alice"), (mkMsg 8, "alice"),
       (mkMsg 9, "alice"), (mkMsg 10, "alice")] :=
  have h : get_channel_messages exampleListDB 1 1 5 none =
      .ok [(mkMsg 6, "alice"), (mkMsg 7, "alice"), (mkMsg 8, "alice"),
           (mkMsg 9, "alice"), (mkMsg 10, "alice")] := rfl
  ⟨h, ((C9_channel_listing exampleListDB 1 1 5 none).2 _ h).1,
      ((C9_channel_listing exampleListDB 1 1 5 none).2 _ h).2.1⟩

/-- C4: a persisted `llm_response` message authored by the all-zero sentinel
(which matches no user row) never appears in the channel message listing
(inner join with users), yet appears in its thread's listing (outer join)
with author label `"System"`, whenever the thread's messages fit under the
listing cap. -/
theorem C4_llm_message_visibility (db : DB) (uid : Nat) (t : Thread)
    (msg : Message) (limit : Nat)
    (husers : ∀ u ∈ db.users, u.id ≠ systemUserId)
    (ht : db.threads.find? (fun th => th.id = t.id) = some t)
    (hmsg : msg ∈ db.messages)
    (htype : msg.message_type = "llm_response")
    (hauthor : msg.author_id = systemUserId)
    (hthread : msg.thread_id = some t.id)
    (hmem : is_member db t.channel_id uid = true)
    (hcount : (db.messages.filter
      (fun m => m.thread_id = some t.id)).length ≤ limit) :
    (∀ lim2 bef rows,
      get_channel_messages db uid msg.channel_id lim2 bef = .ok rows →
        msg ∉ rows.map Prod.fst) ∧
    (∃ rows, get_thread_messages db uid t.id limit = .ok rows ∧
      (msg, "System") ∈ rows) := by
  have hfind : db.users.find? (fun u => u.id = msg.author_id) = none := by
    refine List.find?_eq_none.mpr (fun u hu => ?_)
    simp [hauthor, husers u hu]
  constructor
  · intro lim2 bef rows hok hmem2
    unfold get_channel_messages at hok
    by_cases hm : is_member db msg.channel_id uid = false
    · rw [if_pos hm] at hok; exact absurd hok (by simp)
    · rw [if_neg hm] at hok
      have hrows := (Except.ok.inj hok).symm
      subst hrows
      obtain ⟨r, hr, hr1⟩ := List.mem_map.mp hmem2
      obtain ⟨p, hp, hf⟩ := mem_of_mem_pipeline _ _ _ _ _ hr
      obtain ⟨m, hmb, heq⟩ := List.mem_filterMap.mp hp
      obtain ⟨u, hu, hup⟩ := Option.map_eq_some'.mp heq
      have h2 := congrArg Prod.fst hf
      simp only at h2
      rw [← hup] at h2
      have hm1 : m = msg := h2.trans hr1
      rw [hm1, hfind] at hu
      exact absurd hu (by simp)
  · simp only [get_thread_messages, ht]
    rw [if_neg (by simp [hmem])]
    refine ⟨_, rfl, ?_⟩
    have hbase : msg ∈ db.messages.filter (fun m => m.thread_id = some t.id) :=
      List.mem_filter.mpr ⟨hmsg, by simp [hthread]⟩
    have hjoin : (msg, db.users.find? (fun u => u.id = msg.author_id)) ∈
        (db.messages.filter (fun m => m.thread_id = some t.id)).map
          (fun m => (m, db.users.find? (fun u => u.id = m.author_id))) :=
      List.mem_map_of_mem _ hbase
    have hlen : ((db.messages.filter (fun m => m.thread_id = some t.id)).map
        (fun m => (m, db.users.find? (fun u => u.id = m.author_id)))).length ≤
          limit := by
      rw [List.length_map]; exact hcount
    have hmem3 := mem_pipeline_of_le
      (newestFirst (fun p : Message × Option User => p.1.created_at)) _ limit
      (fun p : Message × Option User =>
        (p.1, match p.2 with | some u => u.username | none => "System"))
      _ hlen hjoin
    rw [hfind] at hmem3
    simpa using hmem3

/-- A thread message in channel 1: `hello` by alice, then the assistant's
`llm_response` authored by the all-zero sentinel. -/
def exTextMsg : Message := ⟨1, 1, 1, some 5, "hello", "text", 1⟩

/-- The assistant's reply row. -/
def exLlmMsg : Message := ⟨2, 1, 0, some 5, "result", "llm_response", 2⟩

/-- A store with one member, one thread and the two messages above. -/
def exampleThreadDB : DB :=
  { users := [⟨1, "a@x.com", "alice", none, "h", true⟩],
    channels := [⟨1⟩],
    channel_members := [⟨1, 1, "member"⟩],
    messages := [exTextMsg, exLlmMsg],
    threads := [⟨5, 1⟩] }

/-- Witness for C4: in the concrete store the channel listing returns only the
text message, the llm message is not among the listed messages, and the
thread listing contains the llm message labelled `"System"`. -/
theorem C4_llm_message_visibility_witness :
    get_channel_messages exampleThreadDB 1 1 50 none =
      .ok [(exTextMsg, "alice")] ∧
    exLlmMsg ∉ ([(exTextMsg, "alice")] : List (Message × String)).map Prod.fst ∧
    (∃ rows, get_thread_messages exampleThreadDB 1 5 50 = .ok rows ∧
      (exLlmMsg, "System") ∈ rows) :=
  have h : get_channel_messages exampleThreadDB 1 1 50 none =
      .ok [(exTextMsg, "alice")] := rfl
  ⟨h,
   (C4_llm_message_visibility exampleThreadDB 1 ⟨5, 1⟩ exLlmMsg 50
      (by decide) rfl (by decide) rfl rfl rfl rfl (by decide)).1 50 none _ h,
   (C4_llm_message_visibility exampleThreadDB 1 ⟨5, 1⟩ exLlmMsg 50
      (by decide) rfl (by decide) rfl rfl rfl rfl (by decide)).2⟩

end Venn
